import Mathlib

/-!
Verification of the impedance.py equivalent-circuit core.

The repository source under `src/eisfit/circuits.py` defines the model
wrapper classes (`BaseCircuit`, `Randles`, `DefineCircuit`, `FlexiCircuit`).
The circuit-description engine (`computeCircuit`, `calculateCircuitLength`,
`circuit_fit`, `residuals` in `fitting.py`) and the population generator
(`make_population` in `genetic.py`) are part of the repository but their
source is not available here; those parts are modelled from the
specification, as marked in the doc comments below.  External collaborators
(the nonlinear least-squares solver) are modelled as oracle parameters.
-/

namespace Eisfit

/-- Element type codes of the circuit description language: R (resistor),
C (capacitor), E (constant-phase element), W (Warburg). -/
inductive ElemType : Type where
  | R : ElemType
  | C : ElemType
  | E : ElemType
  | W : ElemType
deriving DecidableEq, Repr

/-- Modelled from the spec: per-element parameter arity.  R and C take one
parameter; E and W take two. -/
def arity : ElemType → Nat
  | .R => 1
  | .C => 1
  | .E => 2
  | .W => 2

/-- Modelled from the spec: a parsed circuit description.  Elements carry
their type and the list of sub-parameter indices written in the
description (for example `W_1/W_2` yields indices `[1, 2]`); `series`
and `parallel` are the two combinators, each with a list of children. -/
inductive Circuit : Type where
  | elem (t : ElemType) (idxs : List Nat) : Circuit
  | series (cs : List Circuit) : Circuit
  | parallel (cs : List Circuit) : Circuit
deriving Repr

mutual

/-- Modelled from the spec: total parameter count of a parsed circuit,
the sum over all elements of their arities, computed structurally. -/
def countParams : Circuit → Nat
  | .elem t _ => arity t
  | .series cs => countList cs
  | .parallel cs => countList cs

/-- Total parameter count of a list of sub-circuits. -/
def countList : List Circuit → Nat
  | [] => 0
  | c :: cs => countParams c + countList cs

end

mutual

/-- The element types occurring in a circuit, in left-to-right order. -/
def elementsOf : Circuit → List ElemType
  | .elem t _ => [t]
  | .series cs => elementsList cs
  | .parallel cs => elementsList cs

/-- The element types occurring in a list of sub-circuits. -/
def elementsList : List Circuit → List ElemType
  | [] => []
  | c :: cs => elementsOf c ++ elementsList cs

end

/-- Element type code of a character, or `none` for an unknown letter. -/
def parseType : Char → Option ElemType
  | 'R' => some ElemType.R
  | 'C' => some ElemType.C
  | 'E' => some ElemType.E
  | 'W' => some ElemType.W
  | _ => none

/-- Value of a list of decimal digit characters. -/
def digitsToNat (ds : List Char) : Nat :=
  ds.foldl (fun acc c => 10 * acc + (c.toNat - 48)) 0

/-- Parse a nonempty run of decimal digits. -/
def parseIndex (s : List Char) : Option (Nat × List Char) :=
  let p := s.span (fun c => c.isDigit)
  if p.1.isEmpty then none else some (digitsToNat p.1, p.2)

/-- Parse one token of the form `<Type>_<index>`. -/
def parseToken : List Char → Option ((ElemType × Nat) × List Char)
  | c :: '_' :: rest =>
    match parseType c with
    | none => none
    | some t =>
      match parseIndex rest with
      | none => none
      | some (n, rest2) => some ((t, n), rest2)
  | _ => none

/-- Parse the remaining `/<Type>_<index>` sub-parameter tokens of an
element group, all of which must share the element type `t`. -/
def parseGroupAux : Nat → ElemType → List Nat → List Char → Option (List Nat × List Char)
  | 0, _, _, _ => none
  | Nat.succ fuel, t, acc, s =>
    match s with
    | '/' :: rest =>
      match parseToken rest with
      | some ((t2, n), rest2) =>
        if t2 = t then parseGroupAux fuel t (acc ++ [n]) rest2 else none
      | none => none
    | _ => some (acc, s)

/-- Parse one element group such as `R_0` or `W_1/W_2`.  Modelled from the
spec invariant: the group must supply exactly the parameter count its
element type requires, so the number of sub-tokens must equal the arity. -/
def parseElem (s : List Char) : Option (Circuit × List Char) :=
  match parseToken s with
  | none => none
  | some ((t, n), rest) =>
    match parseGroupAux (rest.length + 1) t [n] rest with
    | none => none
    | some (idxs, rest2) =>
      if idxs.length = arity t then some (Circuit.elem t idxs, rest2) else none

/-- Wrap a parsed series of length one transparently, and longer series in
a `series` node. -/
def mkSeries : List Circuit → Circuit
  | [c] => c
  | cs => Circuit.series cs

mutual

/-- Parse one term: a parallel combination `p(...)` or an element group. -/
def parseTerm : Nat → List Char → Option (Circuit × List Char)
  | 0, _ => none
  | Nat.succ fuel, s =>
    match s with
    | 'p' :: '(' :: rest =>
      match parseBranches fuel rest with
      | some (bs, ')' :: rest2) => some (Circuit.parallel bs, rest2)
      | _ => none
    | _ => parseElem s

/-- Parse a series: terms separated by `-`. -/
def parseSeries : Nat → List Char → Option (List Circuit × List Char)
  | 0, _ => none
  | Nat.succ fuel, s =>
    match parseTerm fuel s with
    | some (c, '-' :: rest) =>
      match parseSeries fuel rest with
      | some (cs, rest2) => some (c :: cs, rest2)
      | none => none
    | some (c, rest) => some ([c], rest)
    | none => none

/-- Parse the comma-separated branches of a parallel combination. -/
def parseBranches : Nat → List Char → Option (List Circuit × List Char)
  | 0, _ => none
  | Nat.succ fuel, s =>
    match parseSeries fuel s with
    | some (cs, ',' :: rest) =>
      match parseBranches fuel rest with
      | some (bs, rest2) => some (mkSeries cs :: bs, rest2)
      | none => none
    | some (cs, rest) => some ([mkSeries cs], rest)
    | none => none

end

/-- Modelled from the spec: parse a circuit description string into a
parsed circuit, `none` when the description is malformed (unbalanced
combinators, unknown element letter, wrong sub-parameter count, or
trailing garbage). -/
def parseCircuit (s : String) : Option Circuit :=
  let cs := s.toList
  match parseSeries (3 * cs.length + 3) cs with
  | some (l, []) => some (mkSeries l)
  | _ => none

/-- Modelled from the spec: `calculateCircuitLength` (`parameterCount`)
parses the description and returns the total required parameter count;
`none` models the `MalformedCircuitError` failure. -/
def calculateCircuitLength (circuit : String) : Option Nat :=
  (parseCircuit circuit).map countParams

/-- Sanity check: the parser rejects malformed descriptions — an
unclosed parallel combinator, an unknown element letter, and a
two-parameter element given only one sub-parameter token. -/
theorem parser_rejects_malformed :
    calculateCircuitLength "R_0-p(R_1,C_1" = none ∧
    calculateCircuitLength "Q_0" = none ∧
    calculateCircuitLength "W_1" = none :=
  ⟨by decide, by decide, by decide⟩

/-- Errors surfaced by the Python code, modelled as tags.  The two
`valueError` variants carry the two distinct ValueError messages raised
by `BaseCircuit.fit` and `BaseCircuit.predict`; `assertionError` models a
failed `assert`; `typeError` the `len(None)` failure; `attributeError` a
missing instance attribute; `indexError` indexing an empty array;
`malformedCircuit` and `parameterArity` the description-engine failures
named `MalformedCircuitError` and `ParameterArityError` in the spec;
`solverError` a failure propagated out of the external solver. -/
inductive PyErr : Type where
  | valueErrorNoGuess : PyErr
  | valueErrorNotFitted : PyErr
  | assertionError : PyErr
  | typeError : PyErr
  | attributeError : PyErr
  | indexError : PyErr
  | malformedCircuit : PyErr
  | parameterArity : PyErr
  | solverError : PyErr
  | nameError : PyErr
deriving DecidableEq, Repr

/-- Modelled from the spec: series combination of sub-impedances is their
sum. -/
noncomputable def seriesCombine (zs : List ℂ) : ℂ := zs.sum

/-- Modelled from the spec: parallel combination of sub-impedances is the
reciprocal of the sum of the reciprocals. -/
noncomputable def parallelCombine (zs : List ℂ) : ℂ := ((zs.map fun z => z⁻¹).sum)⁻¹

/-- Modelled from the spec: finite-length Warburg impedance with
parameters (sigma, B) at angular frequency omega.  The spec leaves the
exact finite-length formula open; the standard short-Warburg form
`sigma / sqrt(j omega) * tanh(B * sqrt(j omega))` is fixed here.  No
claim depends on this choice. -/
noncomputable def warburgZ (sigma B omega : ℝ) : ℂ :=
  (sigma : ℂ) / Complex.cpow (Complex.I * omega) (1 / 2)
    * Complex.tanh ((B : ℂ) * Complex.cpow (Complex.I * omega) (1 / 2))

/-- Modelled from the spec: impedance of one element, consuming its
parameters from the front of the parameter list.  R takes one parameter r
and has impedance r; C takes one parameter c and has impedance
`1/(j omega c)`; E takes (q, a) with impedance `1/(q (j omega)^a)`;
W takes two parameters, see `warburgZ`.  Here `omega = 2 pi f`.
Consuming more parameters than remain is a `parameterArity` error. -/
noncomputable def elemEval : ElemType → List ℝ → ℝ → Except PyErr (ℂ × List ℝ)
  | .R, r :: ps, _ => .ok ((r : ℂ), ps)
  | .C, c :: ps, f => .ok ((Complex.I * (2 * Real.pi * f) * c)⁻¹, ps)
  | .E, q :: a :: ps, f =>
      .ok (((q : ℂ) * Complex.cpow (Complex.I * (2 * Real.pi * f)) (a : ℂ))⁻¹, ps)
  | .W, sg :: b :: ps, f => .ok (warburgZ sg b (2 * Real.pi * f), ps)
  | _, _, _ => .error .parameterArity

mutual

/-- Modelled from the spec: recursive impedance evaluation of a parsed
circuit at one frequency, threading the parameter list in left-to-right
token order and returning the impedance together with the unconsumed
parameters. -/
noncomputable def evalCircuit : Circuit → List ℝ → ℝ → Except PyErr (ℂ × List ℝ)
  | .elem t _, ps, f => elemEval t ps f
  | .series cs, ps, f =>
    match evalList cs ps f with
    | .error e => .error e
    | .ok (zs, rest) => .ok (seriesCombine zs, rest)
  | .parallel cs, ps, f =>
    match evalList cs ps f with
    | .error e => .error e
    | .ok (zs, rest) => .ok (parallelCombine zs, rest)

/-- Evaluate a list of sub-circuits in order, threading the parameters. -/
noncomputable def evalList : List Circuit → List ℝ → ℝ → Except PyErr (List ℂ × List ℝ)
  | [], ps, _ => .ok ([], ps)
  | c :: cs, ps, f =>
    match evalCircuit c ps f with
    | .error e => .error e
    | .ok (z, rest) =>
      match evalList cs rest f with
      | .error e => .error e
      | .ok (zs, rest2) => .ok (z :: zs, rest2)

end

/-- Evaluate a parsed circuit with the same parameters at each frequency
of a list, independently per frequency. -/
noncomputable def computeEach (c : Circuit) (params : List ℝ) : List ℝ → Except PyErr (List ℂ)
  | [] => .ok []
  | f :: fs =>
    match evalCircuit c params f with
    | .error e => .error e
    | .ok (z, _) =>
      match computeEach c params fs with
      | .error e => .error e
      | .ok zs => .ok (z :: zs)

/-- Modelled from the spec: `computeCircuit` parses the description and
evaluates it with the given parameters at each given frequency,
returning the impedance series; a malformed description is a
`malformedCircuit` error. -/
noncomputable def computeCircuit (circuit : String) (params : List ℝ)
    (frequencies : List ℝ) : Except PyErr (List ℂ) :=
  match parseCircuit circuit with
  | none => .error .malformedCircuit
  | some c => computeEach c params frequencies

/-- State of a `BaseCircuit`-style model instance (`Randles` and
`DefineCircuit` set all of these attributes in their constructors;
`parameters_` is `none` until a successful fit). -/
structure ModelState : Type where
  name : String
  circuit : String
  initial_guess : Option (List ℝ)
  algorithm : String
  bounds : Option (List (ℝ × ℝ))
  parameters_ : Option (List ℝ)

/-- `BaseCircuit.predict` from `circuits.py`: when the model has been fit
(`parameters_` is not None) it returns `computeCircuit` of the stored
description with the fitted parameters at the given frequencies;
otherwise it raises `ValueError` with the not-fitted message.  The
returned pair carries the result and the post-call state; `predict`
performs no attribute assignment, so the state is returned unchanged. -/
noncomputable def predict (m : ModelState) (frequencies : List ℝ) :
    Except PyErr (List ℂ) × ModelState :=
  (match m.parameters_ with
   | some p => computeCircuit m.circuit p frequencies
   | none => .error .valueErrorNotFitted, m)

/-- The external least-squares fit driver `circuit_fit` as an oracle:
given frequencies, impedance, description, initial guess, algorithm name
and bounds it returns fitted parameters and a diagnostics vector. -/
def CircuitFitOracle : Type :=
  List ℝ → List ℂ → String → List ℝ → String → Option (List (ℝ × ℝ)) →
    List ℝ × List ℝ

/-- `BaseCircuit.fit` from `circuits.py`: asserts that frequencies and
impedance have equal length, reads `frequencies[0]` (an IndexError on an
empty array), then either delegates to `circuit_fit` and stores the
fitted parameters, or, when `initial_guess` is None, raises `ValueError`
with the no-initial-guess message. -/
def fit (cf : CircuitFitOracle) (m : ModelState) (frequencies : List ℝ)
    (impedance : List ℂ) : Except PyErr ModelState :=
  if frequencies.length = impedance.length then
    match frequencies with
    | [] => .error .indexError
    | _ :: _ =>
      match m.initial_guess with
      | some g =>
        let r := cf frequencies impedance m.circuit g m.algorithm m.bounds
        .ok { m with parameters_ := some r.1 }
      | none => .error .valueErrorNoGuess
  else .error .assertionError

/-- The fixed description of the CPE Randles topology. -/
def randlesCpeCircuit : String := "R_0-p(R_1,E_1/E_2)-W_1/W_2"

/-- The fixed description of the non-CPE Randles topology. -/
def randlesCircuit : String := "R_0-p(R_1,C_1)-W_1/W_2"

/-- `Randles.__init__` from `circuits.py`: stores the attributes, picks
the topology by the CPE flag, computes the circuit length and asserts
that `len(initial_guess)` equals it.  When `initial_guess` is None the
`len` call raises `TypeError`; when the length differs the assert raises
`AssertionError`. -/
def Randles_init (initial_guess : Option (List ℝ)) (CPE : Bool)
    (algorithm : String) (bounds : Option (List (ℝ × ℝ))) :
    Except PyErr ModelState :=
  let circuit := if CPE then randlesCpeCircuit else randlesCircuit
  match calculateCircuitLength circuit with
  | none => .error .malformedCircuit
  | some len =>
    match initial_guess with
    | none => .error .typeError
    | some g =>
      if g.length = len then
        .ok { name := "Randles", circuit := circuit, initial_guess := some g,
              algorithm := algorithm, bounds := bounds, parameters_ := none }
      else .error .assertionError

/-- State of a `FlexiCircuit` instance.  Its constructor does not call the
base constructor, so several attributes of the other model classes may be
absent entirely: for those, the outer `Option` level models attribute
presence (`none` = attribute missing, an `AttributeError` on access) and
the inner level models the Python value (for `parameters_`, `some none`
would be an attribute set to None). -/
structure FlexiState : Type where
  name : String
  initial_guess : Option (List ℝ)
  generations : Nat
  popsize : Nat
  max_elements : Option Nat
  circuit : Option String
  population : Option (List String)
  parameters_ : Option (Option (List ℝ))

/-- `FlexiCircuit.__init__` from `circuits.py`: sets name, initial_guess,
generations, popsize and max_elements, and nothing else — in particular
neither `parameters_` nor `circuit` nor `bounds` is initialized. -/
def FlexiCircuit_init (max_elements : Option Nat) (generations : Nat)
    (popsize : Nat) (initial_guess : Option (List ℝ)) : FlexiState :=
  { name := "Flexible Circuit", initial_guess := initial_guess,
    generations := generations, popsize := popsize,
    max_elements := max_elements, circuit := none, population := none,
    parameters_ := none }

/-- `BaseCircuit.predict` as inherited by `FlexiCircuit`: `_is_fit` reads
`self.parameters_`, which raises `AttributeError` when the attribute was
never set; with `parameters_` set to None it raises the not-fitted
`ValueError`; otherwise it reads `self.circuit` (again an
`AttributeError` when absent) and evaluates.  No attribute is assigned,
so the state is returned unchanged. -/
noncomputable def predictFlexi (m : FlexiState) (frequencies : List ℝ) :
    Except PyErr (List ℂ) × FlexiState :=
  (match m.parameters_ with
   | none => .error .attributeError
   | some none => .error .valueErrorNotFitted
   | some (some p) =>
     match m.circuit with
     | none => .error .attributeError
     | some c => computeCircuit c p frequencies, m)

/-- The external `scipy.optimize.leastsq` call on the repository residual
function, as an oracle: given the initial guess, measured impedance,
frequencies and circuit description it returns fitted parameters and the
final residual vector `fvec`, or an error propagated out of the solver. -/
def LsqOracle : Type :=
  List ℝ → List ℂ → List ℝ → String → Except PyErr (List ℝ × List ℝ)

/-- The external `make_population` generator as an oracle: argument one is
the generation number (modelling the random state of successive calls),
then the popsize and max-element arguments passed by `FlexiCircuit.fit`. -/
def PopOracle : Type := Nat → Nat → Nat → List String

/-- Mean of the squares of a residual vector, `np.square(fvec).mean()`. -/
noncomputable def mse (l : List ℝ) : ℝ := (l.map fun x => x ^ 2).sum / l.length

/-- One candidate evaluation inside `FlexiCircuit.fit`: sets
`self.circuit` to the candidate, computes its circuit length (a
malformed candidate raises), overwrites `self.initial_guess` with the
uniform guess `np.ones(length)/10`, runs the solver and returns the
`[score, candidate]` pair together with the mutated state. -/
noncomputable def flexiFitCandidate (lsq : LsqOracle) (Z : List ℂ) (f : List ℝ)
    (m : FlexiState) (pop : String) : Except PyErr ((ℝ × String) × FlexiState) :=
  let m1 := { m with circuit := some pop }
  match calculateCircuitLength pop with
  | none => .error .malformedCircuit
  | some len =>
    let m2 := { m1 with initial_guess := some (List.replicate len ((1 : ℝ) / 10)) }
    match lsq (List.replicate len ((1 : ℝ) / 10)) Z f pop with
    | .error e => .error e
    | .ok r => .ok ((mse r.2, pop), m2)

/-- The inner loop of `FlexiCircuit.fit` over one generation: evaluate
every candidate in order, accumulating the `[score, candidate]` pairs;
any candidate failure propagates immediately. -/
noncomputable def flexiGen (lsq : LsqOracle) (Z : List ℂ) (f : List ℝ) :
    FlexiState → List String → Except PyErr (List (ℝ × String) × FlexiState)
  | m, [] => .ok ([], m)
  | m, pop :: rest =>
    match flexiFitCandidate lsq Z f m pop with
    | .error e => .error e
    | .ok (sc, m2) =>
      match flexiGen lsq Z f m2 rest with
      | .error e => .error e
      | .ok (ss, m3) => .ok (sc :: ss, m3)

/-- The outer loop of `FlexiCircuit.fit` over the remaining generations:
each generation rebinds `scores` to the empty list, draws a fresh
population (stored into `self.population`) and runs the inner loop; the
`last` argument carries the scores of the most recent generation, which is
what remains bound after the loop ends. -/
noncomputable def flexiRun (lsq : LsqOracle) (popgen : PopOracle) (Z : List ℂ)
    (f : List ℝ) : Nat → Nat → Option (List (ℝ × String)) → FlexiState →
    Except PyErr (Option (List (ℝ × String)) × FlexiState)
  | 0, _, last, m => .ok (last, m)
  | Nat.succ r, i, _, m =>
    match flexiGen lsq Z f
        { m with population := some (popgen i m.popsize 5) }
        (popgen i m.popsize 5) with
    | .error e => .error e
    | .ok p => flexiRun lsq popgen Z f r (i + 1) (some p.1) p.2

/-- `FlexiCircuit.fit` from `circuits.py`: runs the generation loop with
`n = 5` and returns the `scores` list left bound after the loop — the
pairs of the final generation only, since `scores` is reset at the top
of each generation.  With zero generations the final `print(scores)`
reads an unbound local, a `NameError`. -/
noncomputable def flexiFit (lsq : LsqOracle) (popgen : PopOracle) (Z : List ℂ)
    (f : List ℝ) (m : FlexiState) :
    Except PyErr (List (ℝ × String) × FlexiState) :=
  match flexiRun lsq popgen Z f m.generations 0 none m with
  | .error e => .error e
  | .ok (none, _) => .error .nameError
  | .ok (some s, m2) => .ok (s, m2)

mutual

/-- The structurally computed parameter count of a parsed circuit equals
the sum of the arities of its elements. -/
theorem countParams_eq_sum : ∀ c : Circuit,
    countParams c = ((elementsOf c).map arity).sum
  | .elem t idxs => by simp [countParams, elementsOf]
  | .series cs => by
      rw [countParams, elementsOf]; exact countList_eq_sum cs
  | .parallel cs => by
      rw [countParams, elementsOf]; exact countList_eq_sum cs

/-- The parameter count of a list of sub-circuits equals the sum of the
arities of their elements. -/
theorem countList_eq_sum : ∀ cs : List Circuit,
    countList cs = ((elementsList cs).map arity).sum
  | [] => by simp [countList, elementsList]
  | c :: cs => by
      rw [countList, elementsList, List.map_append, List.sum_append,
        countParams_eq_sum c, countList_eq_sum cs]

end

/-- C2: for every well-formed circuit description, parameterCount
(calculateCircuitLength) is deterministic — it is a pure function — and
returns the sum of the per-element arities (R and C contribute 1, E and
W contribute 2); in particular it maps "R_0-p(R_1,C_1)-W_1/W_2" to 5. -/
theorem parameterCount_sum_of_arities :
    (∀ s c, parseCircuit s = some c →
      calculateCircuitLength s = some (((elementsOf c).map arity).sum)) ∧
    arity ElemType.R = 1 ∧ arity ElemType.C = 1 ∧
    arity ElemType.E = 2 ∧ arity ElemType.W = 2 ∧
    calculateCircuitLength "R_0-p(R_1,C_1)-W_1/W_2" = some 5 := by
  refine ⟨?_, rfl, rfl, rfl, rfl, by decide⟩
  intro s c h
  simp [calculateCircuitLength, h, countParams_eq_sum]

/-- Witness for C2 at the concrete description "R_0-R_1". -/
theorem parameterCount_sum_of_arities_witness :
    calculateCircuitLength "R_0-R_1" =
      some (((elementsOf (Circuit.series [Circuit.elem ElemType.R [0],
        Circuit.elem ElemType.R [1]])).map arity).sum) :=
  parameterCount_sum_of_arities.1 "R_0-R_1" _ rfl

/-- C1: evaluation combines sub-impedances by summation in series and by
the reciprocal of the sum of reciprocals in parallel; in particular
"R_0-R_1" with parameters [5, 10] evaluates to 15 at any frequency, and
"p(R_0,R_1)" with parameters [10, 10] evaluates to 5 at any frequency. -/
theorem evaluate_series_parallel (cs : List Circuit) (ps : List ℝ) (f : ℝ)
    (fs : List ℝ) :
    evalCircuit (Circuit.series cs) ps f =
      (evalList cs ps f).map (fun q => (q.1.sum, q.2)) ∧
    evalCircuit (Circuit.parallel cs) ps f =
      (evalList cs ps f).map (fun q => (((q.1.map fun z => z⁻¹).sum)⁻¹, q.2)) ∧
    computeCircuit "R_0-R_1" [5, 10] fs = .ok (fs.map fun _ => (15 : ℂ)) ∧
    computeCircuit "p(R_0,R_1)" [10, 10] fs = .ok (fs.map fun _ => (5 : ℂ)) := by
  refine ⟨?_, ?_, ?_, ?_⟩
  · cases h : evalList cs ps f <;>
      simp [evalCircuit, h, seriesCombine, Except.map]
  · cases h : evalList cs ps f <;>
      simp [evalCircuit, h, parallelCombine, Except.map]
  · have hparse : parseCircuit "R_0-R_1" =
        some (Circuit.series [Circuit.elem ElemType.R [0],
          Circuit.elem ElemType.R [1]]) := rfl
    have hpt : ∀ g : ℝ, evalCircuit (Circuit.series [Circuit.elem ElemType.R [0],
        Circuit.elem ElemType.R [1]]) [5, 10] g = .ok ((15 : ℂ), []) := by
      intro g
      simp [evalCircuit, evalList, elemEval, seriesCombine]
      norm_num
    simp only [computeCircuit, hparse]
    induction fs with
    | nil => simp [computeEach]
    | cons a as ih => simp [computeEach, hpt, ih]
  · have hparse : parseCircuit "p(R_0,R_1)" =
        some (Circuit.parallel [Circuit.elem ElemType.R [0],
          Circuit.elem ElemType.R [1]]) := rfl
    have hpt : ∀ g : ℝ, evalCircuit (Circuit.parallel [Circuit.elem ElemType.R [0],
        Circuit.elem ElemType.R [1]]) [10, 10] g = .ok ((5 : ℂ), []) := by
      intro g
      simp [evalCircuit, evalList, elemEval, parallelCombine]
      norm_num
    simp only [computeCircuit, hparse]
    induction fs with
    | nil => simp [computeEach]
    | cons a as ih => simp [computeEach, hpt, ih]

/-- C3: predict on a model whose parameters_ is unset raises the
model-not-fitted ValueError and leaves the model unchanged; once
parameters_ is set, predict evaluates the stored circuit description
with the fitted parameters at the given frequencies. -/
theorem predict_requires_fit (m : ModelState) (fs : List ℝ) :
    (m.parameters_ = none →
      predict m fs = (.error .valueErrorNotFitted, m)) ∧
    (∀ p, m.parameters_ = some p →
      predict m fs = (computeCircuit m.circuit p fs, m)) := by
  constructor
  · intro h; simp [predict, h]
  · intro p h; simp [predict, h]

/-- A model state as built by DefineCircuit with no initial guess. -/
noncomputable def mUnfit : ModelState :=
  { name := "Custom", circuit := "R_0", initial_guess := none,
    algorithm := "leastsq", bounds := none, parameters_ := none }

/-- The same model state after a fit stored the parameter vector [5]. -/
noncomputable def mFit : ModelState := { mUnfit with parameters_ := some [5] }

/-- Witness for C3: both branches at concrete model states. -/
theorem predict_requires_fit_witness :
    predict mUnfit [1] = (.error .valueErrorNotFitted, mUnfit) ∧
    predict mFit [1] = (computeCircuit mFit.circuit [5] [1], mFit) :=
  ⟨(predict_requires_fit mUnfit [1]).1 rfl,
   (predict_requires_fit mFit [1]).2 [5] rfl⟩

/-- C4: fit on a model whose initial_guess is None raises the
no-initial-guess ValueError, does not depend on the minimizer (it is
never invoked), and never stores parameters. -/
theorem fit_requires_initial_guess (cf cf2 : CircuitFitOracle)
    (m : ModelState) (fs : List ℝ) (Z : List ℂ)
    (hg : m.initial_guess = none) (hlen : fs.length = Z.length)
    (hne : fs ≠ []) :
    fit cf m fs Z = .error .valueErrorNoGuess ∧
    fit cf m fs Z = fit cf2 m fs Z ∧
    ∀ m2, fit cf m fs Z ≠ .ok m2 := by
  obtain ⟨f, fs2, rfl⟩ := List.exists_cons_of_ne_nil hne
  refine ⟨?_, ?_, ?_⟩ <;> simp [fit, hlen, hg]

/-- A do-nothing stand-in for the external fit driver. -/
noncomputable def cfZero : CircuitFitOracle := fun _ _ _ _ _ _ => ([], [])

/-- A second stand-in for the external fit driver, returning different
values, to witness that the result does not depend on the driver. -/
noncomputable def cfOne : CircuitFitOracle := fun _ _ _ _ _ _ => ([1], [1])

/-- Witness for C4 at a concrete guess-free model. -/
theorem fit_requires_initial_guess_witness :
    fit cfZero mUnfit [1] [Complex.I] = .error .valueErrorNoGuess ∧
    fit cfZero mUnfit [1] [Complex.I] = fit cfOne mUnfit [1] [Complex.I] :=
  ⟨(fit_requires_initial_guess cfZero cfOne mUnfit [1] [Complex.I]
      rfl rfl (by simp)).1,
   (fit_requires_initial_guess cfZero cfOne mUnfit [1] [Complex.I]
      rfl rfl (by simp)).2.1⟩

/-- C5 counterexample: a CPE Randles constructed with a guess of length 4
— the length the claim calls expected — still raises AssertionError,
because the CPE topology requires 6 parameters, not 4. -/
theorem randles_cpe_guess_len_four_raises :
    Randles_init (some [1, 1, 1, 1]) true "leastsq" none =
      .error .assertionError := rfl

/-- C5 amended: constructing a Randles model with a guess whose length
differs from the topology parameter count raises AssertionError for both
variants, whose expected guess lengths are 6 (CPE) and 5 (non-CPE). -/
theorem randles_guess_length_mismatch (g : List ℝ) (CPE : Bool)
    (alg : String) (b : Option (List (ℝ × ℝ)))
    (h : g.length ≠ if CPE then 6 else 5) :
    Randles_init (some g) CPE alg b = .error .assertionError ∧
    calculateCircuitLength randlesCpeCircuit = some 6 ∧
    calculateCircuitLength randlesCircuit = some 5 := by
  refine ⟨?_, by decide, by decide⟩
  cases CPE with
  | true =>
    have hc : calculateCircuitLength randlesCpeCircuit = some 6 := by decide
    rw [if_pos rfl] at h
    simp [Randles_init, hc, h]
  | false =>
    have hc : calculateCircuitLength randlesCircuit = some 5 := by decide
    simp only [Bool.false_eq_true, if_false] at h
    simp [Randles_init, hc, h]

/-- Witness for C5: the empty guess raises for the CPE variant. -/
theorem randles_guess_length_mismatch_witness :
    Randles_init (some []) true "leastsq" none = .error .assertionError ∧
    calculateCircuitLength randlesCpeCircuit = some 6 ∧
    calculateCircuitLength randlesCircuit = some 5 :=
  randles_guess_length_mismatch [] true "leastsq" none (by decide)

/-- C8: constructing a Randles model with initial_guess left as None
always fails with TypeError (len of None), for both variants, so a
Randles model can never be constructed without an initial guess. -/
theorem randles_none_guess_always_fails (CPE : Bool) (alg : String)
    (b : Option (List (ℝ × ℝ))) :
    Randles_init none CPE alg b = .error .typeError := by
  cases CPE <;> rfl

/-- C10: a freshly constructed FlexiCircuit has no parameters_ attribute,
so predict on it fails with AttributeError — a different error from the
model-not-fitted ValueError the other model classes raise — and leaves
the state unchanged. -/
theorem flexi_predict_attribute_error (me : Option Nat) (g p : Nat)
    (ig : Option (List ℝ)) (fs : List ℝ) :
    predictFlexi (FlexiCircuit_init me g p ig) fs =
      (.error .attributeError, FlexiCircuit_init me g p ig) ∧
    PyErr.attributeError ≠ PyErr.valueErrorNotFitted :=
  ⟨rfl, by decide⟩

/-- A successful candidate evaluation returns the candidate as the score
second component of the score pair, preserves popsize and generations, and leaves
the circuit and initial_guess fields of the state overwritten with the candidate and
its uniform guess. -/
theorem flexiFitCandidate_inv (lsq : LsqOracle) (Z : List ℂ) (f : List ℝ)
    (m : FlexiState) (pop : String) (sc : ℝ × String) (m2 : FlexiState)
    (h : flexiFitCandidate lsq Z f m pop = .ok (sc, m2)) :
    sc.2 = pop ∧ m2.popsize = m.popsize ∧ m2.generations = m.generations ∧
    m2.circuit = some pop ∧
    ∃ n, calculateCircuitLength pop = some n ∧
      m2.initial_guess = some (List.replicate n ((1 : ℝ) / 10)) := by
  cases hc : calculateCircuitLength pop with
  | none =>
    simp only [flexiFitCandidate, hc] at h
    exact Except.noConfusion h
  | some n =>
    cases hl : lsq (List.replicate n ((1 : ℝ) / 10)) Z f pop with
    | error e =>
      simp only [flexiFitCandidate, hc, hl] at h
      exact Except.noConfusion h
    | ok r =>
      simp only [flexiFitCandidate, hc, hl, Except.ok.injEq, Prod.mk.injEq] at h
      obtain ⟨h1, h3⟩ := h
      subst h3
      subst h1
      exact ⟨rfl, rfl, rfl, rfl, n, rfl, rfl⟩

/-- A successful generation returns one score pair per candidate, in
order, and preserves popsize and generations. -/
theorem flexiGen_snd (lsq : LsqOracle) (Z : List ℂ) (f : List ℝ) :
    ∀ (popu : List String) (m : FlexiState) (ss : List (ℝ × String))
      (m2 : FlexiState), flexiGen lsq Z f m popu = .ok (ss, m2) →
    ss.map Prod.snd = popu ∧ m2.popsize = m.popsize ∧
    m2.generations = m.generations
  | [], m, ss, m2, h => by
    simp only [flexiGen, Except.ok.injEq, Prod.mk.injEq] at h
    obtain ⟨h1, h2⟩ := h
    subst h1; subst h2
    exact ⟨rfl, rfl, rfl⟩
  | pop :: rest, m, ss, m2, h => by
    cases hc : flexiFitCandidate lsq Z f m pop with
    | error e =>
      simp only [flexiGen, hc] at h
      exact Except.noConfusion h
    | ok p =>
      obtain ⟨sc, mA⟩ := p
      cases hg : flexiGen lsq Z f mA rest with
      | error e =>
        simp only [flexiGen, hc, hg] at h
        exact Except.noConfusion h
      | ok q =>
        obtain ⟨ssr, mB⟩ := q
        simp only [flexiGen, hc, hg, Except.ok.injEq, Prod.mk.injEq] at h
        obtain ⟨h1, h2⟩ := h
        subst h1; subst h2
        obtain ⟨hcand1, hcand2, hcand3, _⟩ :=
          flexiFitCandidate_inv lsq Z f m pop sc mA hc
        obtain ⟨hr1, hr2, hr3⟩ := flexiGen_snd lsq Z f rest mA ssr mB hg
        refine ⟨?_, hr2.trans hcand2, hr3.trans hcand3⟩
        simp [hcand1, hr1]

/-- After a successful generation over a nonempty candidate list, the
circuit and initial_guess fields of the state are those written while evaluating the
final candidate. -/
theorem flexiGen_last (lsq : LsqOracle) (Z : List ℂ) (f : List ℝ) :
    ∀ (pops : List String) (pop : String) (m : FlexiState)
      (ss : List (ℝ × String)) (m2 : FlexiState),
    flexiGen lsq Z f m (pops ++ [pop]) = .ok (ss, m2) →
    m2.circuit = some pop ∧
    ∃ n, calculateCircuitLength pop = some n ∧
      m2.initial_guess = some (List.replicate n ((1 : ℝ) / 10))
  | [], pop, m, ss, m2, h => by
    simp only [List.nil_append] at h
    cases hc : flexiFitCandidate lsq Z f m pop with
    | error e =>
      simp only [flexiGen, hc] at h
      exact Except.noConfusion h
    | ok p =>
      obtain ⟨sc, mA⟩ := p
      simp only [flexiGen, hc, Except.ok.injEq, Prod.mk.injEq] at h
      obtain ⟨h1, h2⟩ := h
      subst h2
      obtain ⟨_, _, _, hcirc, hrest⟩ :=
        flexiFitCandidate_inv lsq Z f m pop sc mA hc
      exact ⟨hcirc, hrest⟩
  | q :: qs, pop, m, ss, m2, h => by
    simp only [List.cons_append] at h
    cases hc : flexiFitCandidate lsq Z f m q with
    | error e =>
      simp only [flexiGen, hc] at h
      exact Except.noConfusion h
    | ok p =>
      obtain ⟨sc, mA⟩ := p
      cases hg : flexiGen lsq Z f mA (qs ++ [pop]) with
      | error e =>
        simp only [flexiGen, hc, hg] at h
        exact Except.noConfusion h
      | ok r =>
        obtain ⟨ssr, mB⟩ := r
        simp only [flexiGen, hc, hg, Except.ok.injEq, Prod.mk.injEq] at h
        obtain ⟨h1, h2⟩ := h
        subst h2
        exact flexiGen_last lsq Z f qs pop mA ssr mB hg

/-- A successful run of at least one generation ends with the scores of
the final generation, whose population was drawn at the final index with
the original popsize. -/
theorem flexiRun_inv (lsq : LsqOracle) (popgen : PopOracle) (Z : List ℂ)
    (f : List ℝ) :
    ∀ (r i : Nat) (last0 : Option (List (ℝ × String))) (m : FlexiState)
      (out : Option (List (ℝ × String)) × FlexiState),
    flexiRun lsq popgen Z f (r + 1) i last0 m = .ok out →
    ∃ (ss : List (ℝ × String)) (m2 mPrev : FlexiState),
      out = (some ss, m2) ∧
      flexiGen lsq Z f
        (FlexiState.mk mPrev.name mPrev.initial_guess mPrev.generations
          mPrev.popsize mPrev.max_elements mPrev.circuit
          (some (popgen (i + r) m.popsize 5)) mPrev.parameters_)
        (popgen (i + r) m.popsize 5) = .ok (ss, m2)
  | 0, i, last0, m, out, h => by
    simp only [flexiRun] at h
    split at h
    next e hg => exact Except.noConfusion h
    next p hg =>
      injection h with h
      subst h
      exact ⟨p.1, p.2, m, rfl, hg⟩
  | Nat.succ r, i, last0, m, out, h => by
    simp only [flexiRun] at h
    split at h
    next e hg => exact Except.noConfusion h
    next p hg =>
      obtain ⟨ss, m2, mPrev, hout, hgen⟩ :=
        flexiRun_inv lsq popgen Z f r (i + 1) (some p.1) p.2 out h
      have hps : p.2.popsize = m.popsize :=
        (flexiGen_snd lsq Z f (popgen i m.popsize 5) _ p.1 p.2 hg).2.1
      rw [hps] at hgen
      have hidx : i + 1 + r = i + (r + 1) := by omega
      rw [hidx] at hgen
      exact ⟨ss, m2, mPrev, hout, hgen⟩

/-- C6 amended: FlexiCircuit.fit with at least one generation returns a
single flat list holding the (score, candidate) pairs of the final
generation only — one pair per candidate of that generation, in order —
because the scores accumulator is rebound at the top of every
generation; pairs of earlier generations are discarded. -/
theorem flexi_fit_last_generation (lsq : LsqOracle) (popgen : PopOracle)
    (Z : List ℂ) (f : List ℝ) (m : FlexiState) (s : List (ℝ × String))
    (m2 : FlexiState) (hg : 1 ≤ m.generations)
    (hok : flexiFit lsq popgen Z f m = .ok (s, m2)) :
    s.map Prod.snd = popgen (m.generations - 1) m.popsize 5 ∧
    s.length = (popgen (m.generations - 1) m.popsize 5).length := by
  unfold flexiFit at hok
  obtain ⟨r, hrr⟩ : ∃ r, m.generations = r + 1 :=
    ⟨m.generations - 1, by omega⟩
  cases hr : flexiRun lsq popgen Z f m.generations 0 none m with
  | error e => rw [hr] at hok; exact Except.noConfusion hok
  | ok out =>
    rw [hr] at hok
    rw [hrr] at hr
    obtain ⟨ss, mB, mPrev, hout, hgen⟩ :=
      flexiRun_inv lsq popgen Z f r 0 none m out hr
    subst hout
    simp only [Except.ok.injEq, Prod.mk.injEq] at hok
    obtain ⟨h1, h2⟩ := hok
    subst h1
    subst h2
    have hsnd := flexiGen_snd lsq Z f (popgen (0 + r) m.popsize 5) _ ss mB hgen
    have hidx : 0 + r = m.generations - 1 := by omega
    rw [hidx] at hsnd
    refine ⟨hsnd.1, ?_⟩
    rw [← hsnd.1, List.length_map]

/-- A solver stand-in that always succeeds with empty diagnostics. -/
def lsqW : LsqOracle := fun _ _ _ _ => .ok ([], [])

/-- A population generator stand-in producing candidate R_0 in generation
0 and candidate C_0 in every later generation. -/
def popW : PopOracle := fun i _ _ => if i = 0 then ["R_0"] else ["C_0"]

/-- A FlexiCircuit constructed with generations = 2 and popsize = 1. -/
def mflex : FlexiState := FlexiCircuit_init none 2 1 none

/-- The instance state after flexiFit on mflex with lsqW and popW. -/
noncomputable def mflexFinal : FlexiState :=
  { name := "Flexible Circuit",
    initial_guess := some (List.replicate 1 ((1 : ℝ) / 10)),
    generations := 2, popsize := 1, max_elements := none,
    circuit := some "C_0", population := some ["C_0"],
    parameters_ := none }

/-- C6 counterexample: with generations = 2 the returned value is a
single flat list whose only candidate is C_0 from the final generation; the
pair scored for candidate R_0 of generation 0 does not appear, so fit
does not return one batch of pairs per generation. -/
theorem flexi_fit_not_generation_batches :
    (flexiFit lsqW popW [] [] mflex).map (fun r => r.1.map Prod.snd) =
      .ok ["C_0"] ∧
    mflex.generations = 2 ∧ popW 0 1 5 = ["R_0"] ∧ popW 1 1 5 = ["C_0"] :=
  ⟨rfl, rfl, rfl, rfl⟩

/-- Witness for the amended C6 at the concrete two-generation run. -/
theorem flexi_fit_last_generation_witness :
    ([((mse [] : ℝ), "C_0")].map Prod.snd =
      popW (mflex.generations - 1) mflex.popsize 5) ∧
    ([((mse [] : ℝ), "C_0")].length =
      (popW (mflex.generations - 1) mflex.popsize 5).length) :=
  flexi_fit_last_generation lsqW popW [] [] mflex [((mse [] : ℝ), "C_0")]
    mflexFinal (by decide) rfl

/-- A solver stand-in failing exactly on candidate R_0. -/
noncomputable def lsqFail : LsqOracle := fun _ _ _ pop =>
  if pop = "R_0" then .error .solverError else .ok ([1], [])

/-- A population generator stand-in always producing [R_0, R_1]. -/
def popFail : PopOracle := fun _ _ _ => ["R_0", "R_1"]

/-- A FlexiCircuit with one generation and popsize 2. -/
def mflexFail : FlexiState := FlexiCircuit_init none 1 2 none

/-- C7: a single failing candidate aborts the whole fit.  The solver
fails only on the first candidate R_0 and succeeds on R_1, yet
FlexiCircuit.fit propagates the error and returns no scores at all: the
remaining candidate of the generation is not salvaged. -/
theorem flexi_fit_candidate_failure_aborts :
    flexiFit lsqFail popFail [] [] mflexFail = .error .solverError ∧
    lsqFail (List.replicate 1 ((1 : ℝ) / 10)) [] [] "R_1" = .ok ([1], []) :=
  ⟨rfl, rfl⟩

/-- C9: after a successful FlexiCircuit.fit, the circuit and
initial_guess attributes hold the description of the last candidate of
the final generation and its uniform guess np.ones(length)/10 — any
user-supplied initial_guess has been overwritten. -/
theorem flexi_fit_overwrites_state (lsq : LsqOracle) (popgen : PopOracle)
    (Z : List ℂ) (f : List ℝ) (m : FlexiState) (s : List (ℝ × String))
    (m2 : FlexiState) (pops : List String) (pop : String)
    (hg : 1 ≤ m.generations)
    (hlast : popgen (m.generations - 1) m.popsize 5 = pops ++ [pop])
    (hok : flexiFit lsq popgen Z f m = .ok (s, m2)) :
    m2.circuit = some pop ∧
    ∃ n, calculateCircuitLength pop = some n ∧
      m2.initial_guess = some (List.replicate n ((1 : ℝ) / 10)) := by
  unfold flexiFit at hok
  obtain ⟨r, hrr⟩ : ∃ r, m.generations = r + 1 :=
    ⟨m.generations - 1, by omega⟩
  cases hr : flexiRun lsq popgen Z f m.generations 0 none m with
  | error e => rw [hr] at hok; exact Except.noConfusion hok
  | ok out =>
    rw [hr] at hok
    rw [hrr] at hr
    obtain ⟨ss, mB, mPrev, hout, hgen⟩ :=
      flexiRun_inv lsq popgen Z f r 0 none m out hr
    subst hout
    simp only [Except.ok.injEq, Prod.mk.injEq] at hok
    obtain ⟨h1, h2⟩ := hok
    subst h2
    have hidx : 0 + r = m.generations - 1 := by omega
    rw [hidx, hlast] at hgen
    exact flexiGen_last lsq Z f pops pop _ ss mB hgen

/-- Witness for C9 at the concrete two-generation run. -/
theorem flexi_fit_overwrites_state_witness :
    mflexFinal.circuit = some "C_0" ∧
    mflexFinal.initial_guess = some (List.replicate 1 ((1 : ℝ) / 10)) := by
  have h := flexi_fit_overwrites_state lsqW popW [] [] mflex
    [((mse [] : ℝ), "C_0")] mflexFinal [] "C_0" (by decide) rfl rfl
  obtain ⟨h1, n, hn, h2⟩ := h
  have hn1 : n = 1 := by
    have h3 : some n = some 1 := hn.symm.trans (by decide)
    exact Option.some.inj h3
  subst hn1
  exact ⟨h1, h2⟩

end Eisfit
